import Mathlib

/-!
Verification of CoinScribe's serverless handlers, frontend hooks and SQL
migration against its specification.

The embedding follows the TypeScript source:
* `checkRateLimit` and the in-memory `rateLimitMap` (the optimized db handler);
* the `limit` query-parameter parsing/clamping (JS `parseInt` + `Math.min`/`Math.max`,
  with `none : Option Int` modelling `NaN`);
* the two HTTP handlers (the optimized rate-limited one and the plain db-test one);
* the React `useMemo` formatting memoization and the `AbortController` guard;
* the SQL migration as a list of DDL statements applied to an abstract database.
-/

namespace CoinScribe

/-- A rate-limit record, as stored in `rateLimitMap`: request count and the
time at which the window resets (`{ count, resetTime }` in the source). -/
structure RateRecord where
  count : Nat
  resetTime : Int
deriving DecidableEq, Repr

/-- The in-memory `rateLimitMap : Map<string, {count, resetTime}>`, embedded as
an association list keyed by client IP, in insertion order (as a JS `Map`). -/
abbrev RateMap := List (String × RateRecord)

/-- `rateLimitMap.get(ip)`. -/
def rmFind (m : RateMap) (ip : String) : Option RateRecord :=
  (m.find? (fun p => p.1 == ip)).map (fun p => p.2)

/-- Mutating the record object held in the map (`record.count++` in the source):
update the entry for `ip` if present, leave the map unchanged otherwise. -/
def rmBump (m : RateMap) (ip : String) (r : RateRecord) : RateMap :=
  m.map (fun p => if p.1 == ip then (p.1, r) else p)

/-- `rateLimitMap.set(ip, r)`: update in place when the key exists, append
otherwise (JS `Map` insertion-order semantics). -/
def rmSet (m : RateMap) (ip : String) (r : RateRecord) : RateMap :=
  if (rmFind m ip).isSome then rmBump m ip r else m ++ [(ip, r)]

/-- The cleanup sweep: delete every entry whose `resetTime` is before `cutoff`
(`if (value.resetTime < cutoff) rateLimitMap.delete(key)`). -/
def rmCleanup (cutoff : Int) (m : RateMap) : RateMap :=
  m.filter (fun p => !(p.2.resetTime < cutoff))

/-- Well-formedness of the embedded map: keys are distinct (a JS `Map` cannot
hold two entries with the same key). -/
def rmWF (m : RateMap) : Prop := (m.map Prod.fst).Nodup

instance (m : RateMap) : Decidable (rmWF m) := by
  unfold rmWF; infer_instance

/-- `checkRateLimit(ip, maxRequests, windowMs)` at time `now` (`Date.now()`),
returning the boolean decision and the updated map.  Faithful to the source:
the record is read first, the cleanup sweep runs only when the map holds more
than 10000 entries, then either a fresh record is installed (no record, or
`now > record.resetTime`), or the count is incremented while below
`maxRequests`, or the request is denied. -/
def checkRateLimit (ip : String) (maxRequests : Nat) (windowMs : Int)
    (now : Int) (m : RateMap) : Bool × RateMap :=
  let record := rmFind m ip
  let m1 := if 10000 < m.length then rmCleanup (now - windowMs) m else m
  match record with
  | none => (true, rmSet m1 ip ⟨1, now + windowMs⟩)
  | some r =>
    if r.resetTime < now then
      (true, rmSet m1 ip ⟨1, now + windowMs⟩)
    else if r.count < maxRequests then
      (true, rmBump m1 ip ⟨r.count + 1, r.resetTime⟩)
    else
      (false, m1)

/-! ### JS `parseInt` and the `limit` clamp

`Math.min(Math.max(parseInt(url.searchParams.get('limit') || '10'), 1), 100)`.
A JS number that may be `NaN` is modelled as `Option Int`, `none` being `NaN`;
`Math.max`/`Math.min` propagate `NaN`. -/

/-- Value of a character as a digit in the given radix, if it is one. -/
def digitVal (radix : Nat) (c : Char) : Option Nat :=
  let v : Option Nat :=
    if '0' ≤ c ∧ c ≤ '9' then some (c.toNat - '0'.toNat)
    else if 'a' ≤ c ∧ c ≤ 'z' then some (c.toNat - 'a'.toNat + 10)
    else if 'A' ≤ c ∧ c ≤ 'Z' then some (c.toNat - 'A'.toNat + 10)
    else none
  match v with
  | some n => if n < radix then some n else none
  | none => none

/-- Accumulating helper for `jsParseInt`: consume digits while valid. -/
def parseDigitsAcc (radix : Nat) (acc : Nat) : List Char → Nat
  | [] => acc
  | c :: cs =>
    match digitVal radix c with
    | none => acc
    | some d => parseDigitsAcc radix (acc * radix + d) cs

/-- JS whitespace trimmed by `parseInt`. -/
def isJsSpace (c : Char) : Bool :=
  c = ' ' ∨ c = '\t' ∨ c = '\n' ∨ c = '\r'

/-- JS `parseInt(s)` with no explicit radix: skip whitespace, optional sign,
optional `0x`/`0X` (hex), then the longest digit prefix; `none` (= `NaN`)
when no digit is found. -/
def jsParseInt (s : String) : Option Int :=
  let cs := s.data.dropWhile isJsSpace
  let (neg, cs1) : Bool × List Char :=
    match cs with
    | '-' :: rest => (true, rest)
    | '+' :: rest => (false, rest)
    | _ => (false, cs)
  let (radix, cs2) : Nat × List Char :=
    match cs1 with
    | '0' :: 'x' :: rest => (16, rest)
    | '0' :: 'X' :: rest => (16, rest)
    | _ => (10, cs1)
  match cs2 with
  | [] => none
  | c :: rest =>
    match digitVal radix c with
    | none => none
    | some d =>
      let n := parseDigitsAcc radix d rest
      some (if neg then -(n : Int) else (n : Int))

/-- JS `Math.max` on two numbers, `NaN` (`none`) propagating. -/
def jsMax (a b : Option Int) : Option Int :=
  match a, b with
  | some x, some y => some (max x y)
  | _, _ => none

/-- JS `Math.min` on two numbers, `NaN` (`none`) propagating. -/
def jsMin (a b : Option Int) : Option Int :=
  match a, b with
  | some x, some y => some (min x y)
  | _, _ => none

/-- The effective `limit` computed by the handler from the raw query parameter
(`url.searchParams.get('limit')`, `none` when absent):
`Math.min(Math.max(parseInt(raw || '10'), 1), 100)`.  JS `||` replaces both
`null` and the empty string by `'10'`. -/
def effectiveLimit (param : Option String) : Option Int :=
  let raw := match param with
    | none => "10"
    | some s => if s = "" then "10" else s
  jsMin (jsMax (jsParseInt raw) (some 1)) (some 100)

/-! ### The two serverless handlers -/

/-- A thrown JS `Error`: its `message` and `stack`. -/
structure JsError where
  message : String
  stack : String
deriving DecidableEq, Repr

/-- A JSON field value in a response body: a string, or a number
(`none` modelling `NaN`). -/
inductive JsonVal where
  | str : String → JsonVal
  | num : Option Int → JsonVal
deriving DecidableEq, Repr

/-- An HTTP response as built by the handlers: status, headers and JSON body
fields, each in source order. -/
structure HResponse where
  status : Nat
  headers : List (String × String)
  body : List (String × JsonVal)
deriving DecidableEq, Repr

/-- Header lookup on a response. -/
def hGet (r : HResponse) (k : String) : Option String :=
  (r.headers.find? (fun p => p.1 == k)).map (fun p => p.2)

/-- Result of one invocation of the optimized handler: the response, the
rate-limit map afterwards, and the fields logged server-side by
`console.error` (empty when nothing was logged). -/
structure HandlerResult where
  response : HResponse
  newMap : RateMap
  logged : List (String × String)
deriving DecidableEq, Repr

/-- `context.ip || 'unknown'` (JS `||`: `undefined` and `""` are falsy). -/
def jsIpOr (contextIp : Option String) : String :=
  match contextIp with
  | none => "unknown"
  | some s => if s = "" then "unknown" else s

/-- The optimized rate-limited handler (the default export wrapping
`checkRateLimit`).  Abstracted inputs: `now` is `Date.now()`, `ts` is
`new Date().toISOString()`, `rtStr` is `responseTime.toFixed(2)`, `limitParam`
is `url.searchParams.get('limit')`, and `tryError` is the error thrown by the
`try` body (`none` when it completes).  The method check, the rate limit, the
`limit` clamp, the response headers/bodies and the catch-all logging follow
the source. -/
def dbOptimizedHandler (method : String) (contextIp : Option String)
    (limitParam : Option String) (tryError : Option JsError)
    (now : Int) (ts rtStr : String) (m : RateMap) : HandlerResult :=
  if method ≠ "GET" then
    { response :=
        { status := 405
          headers := [("Content-Type", "application/json"), ("Allow", "GET")]
          body := [("error", .str "Method not allowed")] }
      newMap := m
      logged := [] }
  else
    let clientIp := jsIpOr contextIp
    let step := checkRateLimit clientIp 60 60000 now m
    if !step.1 then
      { response :=
          { status := 429
            headers :=
              [("Content-Type", "application/json"),
               ("Retry-After", "60"),
               ("X-RateLimit-Limit", "60"),
               ("X-RateLimit-Remaining", "0"),
               ("X-RateLimit-Reset", toString (Int.fdiv now 1000 + 60))]
            body :=
              [("error", .str "Rate limit exceeded"),
               ("message", .str "Too many requests. Please try again later.")] }
        newMap := step.2
        logged := [] }
    else
      match tryError with
      | some e =>
        { response :=
            { status := 500
              headers := [("Content-Type", "application/json")]
              body :=
                [("error", .str "Database connection failed"),
                 ("message", .str e.message),
                 ("timestamp", .str ts)] }
          newMap := step.2
          logged :=
            [("message", e.message), ("stack", e.stack), ("timestamp", ts),
             ("responseTime", rtStr ++ "ms"), ("ip", clientIp)] }
      | none =>
        let limit := effectiveLimit limitParam
        let record := rmFind step.2 clientIp
        let remaining : Int := match record with
          | some r => max (60 - (r.count : Int)) 0
          | none => 59
        { response :=
            { status := 200
              headers :=
                [("Content-Type", "application/json"),
                 ("Cache-Control", "public, max-age=60"),
                 ("X-RateLimit-Limit", "60"),
                 ("X-RateLimit-Remaining", toString remaining),
                 ("X-RateLimit-Reset", toString (Int.fdiv now 1000 + 60))]
              body :=
                [("message", .str "Database connection available"),
                 ("timestamp", .str ts),
                 ("responseTime", .str (rtStr ++ "ms")),
                 ("limit", .num limit)] }
          newMap := step.2
          logged := [] }

/-- Result of the plain `db-test.ts` handler (no rate-limit map). -/
structure DbTestResult where
  response : HResponse
  logged : List (String × String)
deriving DecidableEq, Repr

/-- The plain `netlify/functions/db-test.ts` handler: no method validation and
no rate limit; a `try` that returns 200, and a catch-all that logs the error
details (message, stack, timestamp, responseTime) and returns 500. -/
def dbTestHandler (_method : String) (tryError : Option JsError)
    (ts rtStr : String) : DbTestResult :=
  match tryError with
  | some e =>
    { response :=
        { status := 500
          headers := [("Content-Type", "application/json")]
          body :=
            [("error", .str "Database connection failed"),
             ("message", .str e.message),
             ("timestamp", .str ts)] }
      logged :=
        [("message", e.message), ("stack", e.stack), ("timestamp", ts),
         ("responseTime", rtStr ++ "ms")] }
  | none =>
    { response :=
        { status := 200
          headers :=
            [("Content-Type", "application/json"),
             ("Cache-Control", "public, max-age=60")]
          body :=
            [("message", .str "Database connection available"),
             ("timestamp", .str ts),
             ("responseTime", .str (rtStr ++ "ms"))] }
      logged := [] }

/-- Run the optimized handler on a sequence of GET requests at the given
times, from one client, threading the rate-limit map; returns the responses
in order and the final map. -/
def runHandlerTimes (contextIp : Option String) (ts rtStr : String)
    (m : RateMap) : List Int → List HResponse × RateMap
  | [] => ([], m)
  | t :: rest =>
    let res := dbOptimizedHandler "GET" contextIp none none t ts rtStr m
    let tail := runHandlerTimes contextIp ts rtStr res.newMap rest
    (res.response :: tail.1, tail.2)

/-! ### Frontend: coin formatting, `useMemo`, `AbortController`

Coin prices and percentage changes are JS numbers; they are embedded as
rationals.  The locale-dependent numeric formatters `toLocaleString` and
`toFixed(2)` are taken as parameters (their output depends on the host
locale); the structure of `formattedCoins` follows `App.tsx`. -/

/-- The `Coin` interface of `App.tsx`. -/
structure Coin where
  id : String
  symbol : String
  name : String
  current_price : ℚ
  price_change_percentage_24h : ℚ
deriving DecidableEq, Repr

/-- The hardcoded `mockCoins` list of `App.tsx`. -/
def mockCoins : List Coin :=
  [{ id := "bitcoin", symbol := "BTC", name := "Bitcoin",
     current_price := 45000, price_change_percentage_24h := 2.5 },
   { id := "ethereum", symbol := "ETH", name := "Ethereum",
     current_price := 3000, price_change_percentage_24h := -1.2 },
   { id := "cardano", symbol := "ADA", name := "Cardano",
     current_price := 0.5, price_change_percentage_24h := 5.7 }]

/-- One element of `formattedCoins`: the coin spread together with the four
derived display fields. -/
structure FormattedCoin where
  coin : Coin
  formattedPrice : String
  formattedChange : String
  isPositive : Bool
  upperSymbol : String
deriving DecidableEq, Repr

/-- The body of the `useMemo` callback:
`coins.map(coin => ({...coin, formattedPrice: coin.current_price.toLocaleString(),
formattedChange: coin.price_change_percentage_24h.toFixed(2),
isPositive: coin.price_change_percentage_24h >= 0,
upperSymbol: coin.symbol.toUpperCase()}))`. -/
def formatCoins (toLocaleString toFixed2 : ℚ → String)
    (coins : List Coin) : List FormattedCoin :=
  coins.map (fun coin =>
    { coin := coin
      formattedPrice := toLocaleString coin.current_price
      formattedChange := toFixed2 coin.price_change_percentage_24h
      isPositive := decide (0 ≤ coin.price_change_percentage_24h)
      upperSymbol := coin.symbol.toUpper })

/-- The `useMemo` cell across renders: the dependency reference last seen
(`[coins]`, compared by reference), the cached value, a generation counter
(`gen` identifies the cached object: an unchanged `gen` is reference
equality), and how many times the formatting callback has run. -/
structure MemoState where
  deps : Option Nat
  value : List FormattedCoin
  gen : Nat
  computeCount : Nat
deriving DecidableEq, Repr

/-- One render of `App`: references are `Nat` identifiers resolved through
`store`.  `useMemo` returns the cached value when the `coins` reference
equals the remembered dependency, and re-runs the formatting callback
otherwise.  Returns (value, its generation) and the memo cell afterwards. -/
def renderFormatted (store : Nat → List Coin)
    (toLocaleString toFixed2 : ℚ → String) (coinsRef : Nat)
    (st : MemoState) : (List FormattedCoin × Nat) × MemoState :=
  if st.deps = some coinsRef then
    ((st.value, st.gen), st)
  else
    let v := formatCoins toLocaleString toFixed2 (store coinsRef)
    ((v, st.gen + 1),
     { deps := some coinsRef, value := v, gen := st.gen + 1,
       computeCount := st.computeCount + 1 })

/-- The effect's `AbortController`, reduced to its signal. -/
structure AbortController where
  aborted : Bool
deriving DecidableEq, Repr

/-- `new AbortController()`: signal not aborted. -/
def AbortController.mk' : AbortController := ⟨false⟩

/-- The cleanup function returned by the effect: `abortController.abort()`. -/
def AbortController.abort (_c : AbortController) : AbortController := ⟨true⟩

/-- A state-setter invocation inside `fetchCoins`. -/
inductive StateUpdate where
  | setCoins : List Coin → StateUpdate
  | setLoading : Bool → StateUpdate
  | setError : Option String → StateUpdate
deriving DecidableEq, Repr

/-- The state updates performed by the `fetchCoins` continuation, given the
signal value it observes (`abortController.signal.aborted`) and whether its
body threw: both the `try` and the `catch` update state only under
`if (!abortController.signal.aborted)`. -/
def fetchCoinsUpdates (outcome : Option JsError) (aborted : Bool) :
    List StateUpdate :=
  match outcome with
  | none =>
    if !aborted then [.setCoins mockCoins, .setLoading false] else []
  | some e =>
    if !aborted then [.setError (some e.message), .setLoading false] else []

/-! ### The SQL migration

`supabase/migrations/20251210210000_create_coins_schema.sql`, embedded as the
ordered list of its DDL/DML statements and applied to an abstract database
state. -/

/-- One SQL statement of the migration, by kind and target. -/
inductive SqlStmt where
  | createExtension : String → SqlStmt
  | createTable : String → SqlStmt
  | createIndex : String → String → SqlStmt
  | enableRLS : String → SqlStmt
  | createPolicy : String → String → SqlStmt
  | createFunction : String → SqlStmt
  | createTrigger : String → String → SqlStmt
  | insertInto : String → SqlStmt
  | commentOn : SqlStmt
deriving DecidableEq, Repr

/-- The migration file, statement by statement in source order. -/
def migration : List SqlStmt :=
  [.createExtension "uuid-ossp",
   .createTable "coins",
   .createIndex "idx_coins_symbol" "coins",
   .createIndex "idx_coins_market_cap" "coins",
   .createIndex "idx_coins_volume" "coins",
   .createIndex "idx_coins_last_updated" "coins",
   .createIndex "idx_coins_active" "coins",
   .createTable "coin_price_history",
   .createIndex "idx_price_history_coin_id" "coin_price_history",
   .createIndex "idx_price_history_timestamp" "coin_price_history",
   .createIndex "idx_price_history_coin_timestamp" "coin_price_history",
   .createTable "coin_news",
   .createIndex "idx_news_coin_id" "coin_news",
   .createIndex "idx_news_published" "coin_news",
   .createIndex "idx_news_sentiment" "coin_news",
   .enableRLS "coins",
   .enableRLS "coin_price_history",
   .enableRLS "coin_news",
   .createPolicy "Enable read access for all users" "coins",
   .createPolicy "Enable read access for all users" "coin_price_history",
   .createPolicy "Enable read access for all users" "coin_news",
   .createPolicy "Enable insert for authenticated users only" "coins",
   .createPolicy "Enable update for authenticated users only" "coins",
   .createPolicy "Enable insert for authenticated users only" "coin_price_history",
   .createPolicy "Enable update for authenticated users only" "coin_price_history",
   .createPolicy "Enable insert for authenticated users only" "coin_news",
   .createPolicy "Enable update for authenticated users only" "coin_news",
   .createFunction "update_updated_at_column",
   .createTrigger "update_coins_updated_at" "coins",
   .insertInto "coins",
   .commentOn, .commentOn, .commentOn, .commentOn, .commentOn]

/-- Abstract database state: created tables, indexes, and the tables with
row-level security enabled, in creation order. -/
structure DbState where
  tables : List String
  indexes : List String
  rlsEnabled : List String
deriving DecidableEq, Repr

/-- The empty database. -/
def emptyDb : DbState := ⟨[], [], []⟩

/-- Apply one statement.  `CREATE TABLE IF NOT EXISTS` and
`CREATE INDEX IF NOT EXISTS` are no-ops when the object exists;
`ALTER TABLE ... ENABLE ROW LEVEL SECURITY` records the table as
RLS-enabled.  Policies, functions, triggers, inserts and comments do not
change this abstract state. -/
def applyStmt (db : DbState) : SqlStmt → DbState
  | .createTable t =>
    if t ∈ db.tables then db else { db with tables := db.tables ++ [t] }
  | .createIndex i _ =>
    if i ∈ db.indexes then db else { db with indexes := db.indexes ++ [i] }
  | .enableRLS t =>
    if t ∈ db.rlsEnabled then db
    else { db with rlsEnabled := db.rlsEnabled ++ [t] }
  | _ => db

/-- Apply a whole migration in order. -/
def applyMigration (db : DbState) (stmts : List SqlStmt) : DbState :=
  List.foldl applyStmt db stmts

/-! ### Views and traces over the rate limiter, used to state the
cleanup-harmlessness and per-client noninterference properties. -/

/-- `rateLimitMap.delete(ip)`. -/
def rmErase (m : RateMap) (ip : String) : RateMap :=
  m.filter (fun p => !(p.1 == ip))

/-- The record for `k` that is effective at time `t`: the stored record
unless its window has expired (`t > resetTime`), in which case the limiter
behaves exactly as if no record were stored. -/
def eff (t : Int) (m : RateMap) (k : String) : Option RateRecord :=
  match rmFind m k with
  | some r => if r.resetTime < t then none else some r
  | none => none

/-- Run a trace of requests `(ip, time)` through `checkRateLimit` from state
`m` and collect the allow/deny decisions handed to the given `target`
client. -/
def runDecisionsFor (target : String) (maxRequests : Nat) (windowMs : Int)
    (m : RateMap) : List (String × Int) → List Bool
  | [] => []
  | (ip, t) :: rest =>
    let step := checkRateLimit ip maxRequests windowMs t m
    if ip = target then
      step.1 :: runDecisionsFor target maxRequests windowMs step.2 rest
    else
      runDecisionsFor target maxRequests windowMs step.2 rest

/-- The request times of a trace are nondecreasing and bounded below by `τ`
(requests arrive in clock order). -/
def timesMono (τ : Int) : List (String × Int) → Bool
  | [] => true
  | (_, t) :: rest => decide (τ ≤ t) && timesMono t rest

/-- A family of pairwise-distinct client keys (used to build concrete large
maps). -/
def natKey (n : Nat) : String := String.mk (List.replicate n 'x')

/-- A concrete rate-limit map with 10001 distinct clients, all with
`resetTime = 0`. -/
def bigMap : RateMap :=
  (natKey 10000, ⟨1, 0⟩) ::
    (List.range 10000).map (fun i => (natKey i, ⟨1, 0⟩))

/-! ## Theorems -/

/-- C10: applying the SQL migration to an empty database creates exactly the
3 tables `coins`, `coin_price_history`, `coin_news`, exactly 11 indexes, and
leaves row-level security enabled on all 3 tables. -/
theorem c10_migration_three_tables_eleven_indexes_rls :
    (applyMigration emptyDb migration).tables =
      ["coins", "coin_price_history", "coin_news"] ∧
    (applyMigration emptyDb migration).tables.length = 3 ∧
    (applyMigration emptyDb migration).indexes.length = 11 ∧
    (applyMigration emptyDb migration).rlsEnabled =
      ["coins", "coin_price_history", "coin_news"] ∧
    ∀ t ∈ (applyMigration emptyDb migration).tables,
      t ∈ (applyMigration emptyDb migration).rlsEnabled := by
  decide

/-- C5: the `limit` clamp maps input `"0"` to effective limit 1, `"500"` to
100, and `"42"` to 42. -/
theorem c5_clamp_examples :
    effectiveLimit (some "0") = some 1 ∧
    effectiveLimit (some "500") = some 100 ∧
    effectiveLimit (some "42") = some 42 := by
  decide

/-- C2 (failing input): for the `limit` query parameter `"abc"`,
`parseInt` yields `NaN` and `Math.min(Math.max(NaN, 1), 100)` is again `NaN`
(`none` in the embedding), so the effective limit is *not* an integer in
[1,100]; the handler still answers 200 and places the `NaN` limit in its
body. -/
theorem c2_limit_nan_on_nonnumeric_input :
    effectiveLimit (some "abc") = none ∧
    (dbOptimizedHandler "GET" none (some "abc") none 0 "T" "0.00" []).response.status
      = 200 ∧
    ((dbOptimizedHandler "GET" none (some "abc") none 0 "T" "0.00" []).response.body.find?
        (fun p => p.1 == "limit")) = some ("limit", .num none) := by
  decide

/-- C8: once the effect cleanup has called `abort()` on the controller, the
`fetchCoins` continuation performs no state update at all — neither
`setCoins`, `setError` nor `setLoading` — whatever its outcome was. -/
theorem c8_abort_drops_all_state_updates
    (c : AbortController) (outcome : Option JsError) :
    fetchCoinsUpdates outcome (AbortController.abort c).aborted = [] := by
  cases outcome <;> rfl

/-- C7: when the `coins` reference is the dependency remembered by the memo
cell, a render returns the cached `formattedCoins` value with the same
identity (`gen`) and the same memo cell — in particular the formatting
callback does not run again; the value is recomputed (callback run once
more) exactly when the `coins` reference differs from the remembered one. -/
theorem c7_memo_reference_stability (store : Nat → List Coin)
    (toLocaleString toFixed2 : ℚ → String) (coinsRef : Nat) (st : MemoState) :
    (st.deps = some coinsRef →
      renderFormatted store toLocaleString toFixed2 coinsRef st
        = ((st.value, st.gen), st)) ∧
    (st.deps ≠ some coinsRef →
      (renderFormatted store toLocaleString toFixed2 coinsRef st).1
        = (formatCoins toLocaleString toFixed2 (store coinsRef), st.gen + 1) ∧
      (renderFormatted store toLocaleString toFixed2 coinsRef st).2.computeCount
        = st.computeCount + 1) := by
  constructor
  · intro h
    simp [renderFormatted, h]
  · intro h
    simp [renderFormatted, h]

/-- Witness for C7: a memo cell whose dependency is reference 0 is returned
as-is when rendered with reference 0, and the callback runs once more when
rendered with reference 1. -/
theorem c7_memo_reference_stability_witness :
    ((⟨some 0, [], 5, 2⟩ : MemoState).deps = some 0 ∧
      renderFormatted (fun _ => mockCoins) (fun _ => "p") (fun _ => "c") 0
          ⟨some 0, [], 5, 2⟩
        = (([], 5), ⟨some 0, [], 5, 2⟩)) ∧
    ((⟨some 0, [], 5, 2⟩ : MemoState).deps ≠ some 1 ∧
      (renderFormatted (fun _ => mockCoins) (fun _ => "p") (fun _ => "c") 1
          ⟨some 0, [], 5, 2⟩).2.computeCount = 3) := by
  refine ⟨⟨rfl, ?_⟩, ⟨by decide, ?_⟩⟩
  · exact (c7_memo_reference_stability (fun _ => mockCoins) (fun _ => "p")
      (fun _ => "c") 0 ⟨some 0, [], 5, 2⟩).1 rfl
  · exact ((c7_memo_reference_stability (fun _ => mockCoins) (fun _ => "p")
      (fun _ => "c") 1 ⟨some 0, [], 5, 2⟩).2 (by decide)).2

/-- C3 (counterexample): the plain `db-test.ts` handler performs no method
validation — a POST request is answered with status 200, not 405 (`status ==
405` evaluates to `false`). -/
theorem c3_dbtest_post_returns_200_not_405 :
    (dbTestHandler "POST" none "T" "0.00").response.status = 200 ∧
    ((dbTestHandler "POST" none "T" "0.00").response.status == 405) = false := by
  decide

/-- C3 (amended): only the optimized rate-limited handler rejects non-GET
requests, with a 405 JSON error body; the plain `db-test.ts` handler answers
200 or 500 regardless of the method; and every response of either handler has
status 200, 405, 429 or 500 — error outcomes are exactly 405 (wrong method),
429 (rate-limited) or 500 (generic failure). -/
theorem c3_amended_error_statuses :
    (∀ method contextIp limitParam tryError now ts rtStr m,
      method ≠ "GET" →
      (dbOptimizedHandler method contextIp limitParam tryError now ts rtStr
          m).response.status = 405 ∧
      (dbOptimizedHandler method contextIp limitParam tryError now ts rtStr
          m).response.body = [("error", .str "Method not allowed")]) ∧
    (∀ method contextIp limitParam tryError now ts rtStr m,
      (dbOptimizedHandler method contextIp limitParam tryError now ts rtStr
          m).response.status = 200 ∨
      (dbOptimizedHandler method contextIp limitParam tryError now ts rtStr
          m).response.status = 405 ∨
      (dbOptimizedHandler method contextIp limitParam tryError now ts rtStr
          m).response.status = 429 ∨
      (dbOptimizedHandler method contextIp limitParam tryError now ts rtStr
          m).response.status = 500) ∧
    (∀ method tryError ts rtStr,
      (dbTestHandler method tryError ts rtStr).response.status = 200 ∨
      (dbTestHandler method tryError ts rtStr).response.status = 500) := by
  refine ⟨?_, ?_, ?_⟩
  · intro method contextIp limitParam tryError now ts rtStr m h
    simp [dbOptimizedHandler, h]
  · intro method contextIp limitParam tryError now ts rtStr m
    by_cases h : method = "GET"
    · subst h
      simp only [dbOptimizedHandler]
      split
      · simp
      · split
        · simp
        · cases tryError <;> simp
    · simp [dbOptimizedHandler, h]
  · intro method tryError ts rtStr
    cases tryError <;> simp [dbTestHandler]

/-- Witness for C3 (amended): concrete instances — a POST to the optimized
handler yields the 405 error body; a GET through an empty map yields one of
the allowed statuses; the plain handler on a POST yields 200 or 500. -/
theorem c3_amended_error_statuses_witness :
    (("POST" : String) ≠ "GET" ∧
      (dbOptimizedHandler "POST" none none none 0 "T" "0.00" []).response.status
          = 405 ∧
      (dbOptimizedHandler "POST" none none none 0 "T" "0.00" []).response.body
          = [("error", .str "Method not allowed")]) ∧
    ((dbOptimizedHandler "GET" none none none 0 "T" "0.00" []).response.status
        = 200 ∨
      (dbOptimizedHandler "GET" none none none 0 "T" "0.00" []).response.status
        = 405 ∨
      (dbOptimizedHandler "GET" none none none 0 "T" "0.00" []).response.status
        = 429 ∨
      (dbOptimizedHandler "GET" none none none 0 "T" "0.00" []).response.status
        = 500) ∧
    ((dbTestHandler "POST" none "T" "0.00").response.status = 200 ∨
      (dbTestHandler "POST" none "T" "0.00").response.status = 500) := by
  refine ⟨⟨by decide, ?_⟩, ?_, ?_⟩
  · exact c3_amended_error_statuses.1 "POST" none none none 0 "T" "0.00" []
      (by decide)
  · exact c3_amended_error_statuses.2.1 "GET" none none none 0 "T" "0.00" []
  · exact c3_amended_error_statuses.2.2 "POST" none "T" "0.00"

/-- C4: when the handler body throws, both handlers answer 500 with a JSON
body holding an error message (`error`, `message`, `timestamp`); the stack
trace appears in the server-side log, and the response depends only on the
error's message, never on its stack (so the stack is not returned to the
client). -/
theorem c4_thrown_error_500_stack_only_logged
    (contextIp limitParam : Option String) (e : JsError) (now : Int)
    (ts rtStr : String) (m : RateMap)
    (hAllowed : (checkRateLimit (jsIpOr contextIp) 60 60000 now m).1 = true) :
    (dbOptimizedHandler "GET" contextIp limitParam (some e) now ts rtStr
        m).response.status = 500 ∧
    (dbOptimizedHandler "GET" contextIp limitParam (some e) now ts rtStr
        m).response.body =
      [("error", .str "Database connection failed"),
       ("message", .str e.message), ("timestamp", .str ts)] ∧
    ("stack", e.stack) ∈
      (dbOptimizedHandler "GET" contextIp limitParam (some e) now ts rtStr
        m).logged ∧
    (∀ stack2,
      (dbOptimizedHandler "GET" contextIp limitParam (some ⟨e.message, stack2⟩)
          now ts rtStr m).response =
      (dbOptimizedHandler "GET" contextIp limitParam (some e) now ts rtStr
          m).response) ∧
    (dbTestHandler "GET" (some e) ts rtStr).response.status = 500 ∧
    ("stack", e.stack) ∈ (dbTestHandler "GET" (some e) ts rtStr).logged ∧
    (∀ method stack2,
      (dbTestHandler method (some ⟨e.message, stack2⟩) ts rtStr).response =
      (dbTestHandler method (some e) ts rtStr).response) := by
  refine ⟨?_, ?_, ?_, ?_, ?_, ?_, ?_⟩ <;>
    simp [dbOptimizedHandler, dbTestHandler, hAllowed]

/-- Witness for C4: a concrete thrown error through an empty rate-limit map. -/
theorem c4_thrown_error_500_stack_only_logged_witness :
    (checkRateLimit (jsIpOr none) 60 60000 0 []).1 = true ∧
    ((dbOptimizedHandler "GET" none none (some ⟨"boom", "trace"⟩) 0 "T" "1.00"
        []).response.status = 500 ∧
      (dbOptimizedHandler "GET" none none (some ⟨"boom", "trace"⟩) 0 "T" "1.00"
          []).response.body =
        [("error", .str "Database connection failed"),
         ("message", .str "boom"), ("timestamp", .str "T")] ∧
      ("stack", "trace") ∈
        (dbOptimizedHandler "GET" none none (some ⟨"boom", "trace"⟩) 0 "T"
          "1.00" []).logged ∧
      (∀ stack2,
        (dbOptimizedHandler "GET" none none (some ⟨"boom", stack2⟩) 0 "T"
            "1.00" []).response =
        (dbOptimizedHandler "GET" none none (some ⟨"boom", "trace"⟩) 0 "T"
            "1.00" []).response) ∧
      (dbTestHandler "GET" (some ⟨"boom", "trace"⟩) "T" "1.00").response.status
          = 500 ∧
      ("stack", "trace") ∈
        (dbTestHandler "GET" (some ⟨"boom", "trace"⟩) "T" "1.00").logged ∧
      (∀ method stack2,
        (dbTestHandler method (some ⟨"boom", stack2⟩) "T" "1.00").response =
        (dbTestHandler method (some ⟨"boom", "trace"⟩) "T" "1.00").response)) := by
  refine ⟨by decide, ?_⟩
  exact c4_thrown_error_500_stack_only_logged none none ⟨"boom", "trace"⟩ 0 "T"
    "1.00" [] (by decide)

/-! ### Single-client behaviour of `checkRateLimit` (towards C1) -/

/-- A first request from an unseen client installs a fresh record and is
allowed. -/
theorem checkRateLimit_fresh (ip : String) (now : Int) :
    checkRateLimit ip 60 60000 now [] = (true, [(ip, ⟨1, now + 60000⟩)]) := rfl

/-- Within the window (`now ≤ resetTime`) and below the maximum, a request
increments the count and is allowed. -/
theorem checkRateLimit_count (ip : String) (now rt : Int) (k : Nat)
    (h1 : ¬ rt < now) (h2 : k < 60) :
    checkRateLimit ip 60 60000 now [(ip, ⟨k, rt⟩)]
      = (true, [(ip, ⟨k + 1, rt⟩)]) := by
  simp [checkRateLimit, rmFind, rmBump, List.find?_cons, h1, h2]

/-- Within the window, a request at count 60 is denied and the map is
unchanged. -/
theorem checkRateLimit_deny (ip : String) (now rt : Int) (h1 : ¬ rt < now) :
    checkRateLimit ip 60 60000 now [(ip, ⟨60, rt⟩)]
      = (false, [(ip, ⟨60, rt⟩)]) := by
  simp [checkRateLimit, rmFind, List.find?_cons, h1]

/-- Running the handler over a concatenation of request-time lists splits
into the two runs, threading the map. -/
theorem runHandlerTimes_append (ctx : Option String) (ts rtStr : String) :
    ∀ (xs ys : List Int) (m : RateMap),
      runHandlerTimes ctx ts rtStr m (xs ++ ys) =
        ((runHandlerTimes ctx ts rtStr m xs).1 ++
           (runHandlerTimes ctx ts rtStr
             (runHandlerTimes ctx ts rtStr m xs).2 ys).1,
         (runHandlerTimes ctx ts rtStr
           (runHandlerTimes ctx ts rtStr m xs).2 ys).2) := by
  intro xs
  induction xs with
  | nil => intro ys m; simp [runHandlerTimes]
  | cons t rest ih =>
    intro ys m
    simp [runHandlerTimes, ih]

/-- Handler runs within one window, starting at count `k`: every request is
answered 200 and the count advances by the number of requests. -/
theorem runHandlerTimes_within_window (ctx : Option String) (ts rtStr : String) :
    ∀ (times : List Int) (k : Nat) (rt : Int),
      k + times.length ≤ 60 → (∀ t ∈ times, ¬ rt < t) →
      (runHandlerTimes ctx ts rtStr [(jsIpOr ctx, ⟨k, rt⟩)] times).1.map
          (fun r => r.status)
        = List.replicate times.length 200 ∧
      (runHandlerTimes ctx ts rtStr [(jsIpOr ctx, ⟨k, rt⟩)] times).2
        = [(jsIpOr ctx, ⟨k + times.length, rt⟩)] := by
  intro times
  induction times with
  | nil => intro k rt _ _; simp [runHandlerTimes]
  | cons t rest ih =>
    intro k rt h1 h2
    have hk : k < 60 := by simp at h1; omega
    have hrt : ¬ rt < t := h2 t (by simp)
    have hstep := checkRateLimit_count (jsIpOr ctx) t rt k hrt hk
    have hrest := ih (k + 1) rt (by simp at h1 ⊢; omega)
      (fun x hx => h2 x (by simp [hx]))
    have e1 : k + 1 + rest.length = k + (rest.length + 1) := by omega
    simp [runHandlerTimes, dbOptimizedHandler, hstep, hrest.1, hrest.2,
      List.replicate_succ, e1]

/-- C1: for any single client, 61 GET requests inside one 60-second window
(the window opened by the first request) are answered 200 for each of the
first 60 and 429 with header `Retry-After: 60` on the 61st —
`checkRateLimit` allows calls 1 through 60 of the window and denies
call 61. -/
theorem c1_sixty_allowed_then_429 (ctx : Option String) (ts rtStr : String)
    (t0 tLast : Int) (mid : List Int)
    (hlen : mid.length = 59)
    (hmid : ∀ t ∈ mid, t0 ≤ t ∧ t ≤ t0 + 60000)
    (hlast1 : t0 ≤ tLast) (hlast2 : tLast ≤ t0 + 60000) :
    (runHandlerTimes ctx ts rtStr [] (t0 :: (mid ++ [tLast]))).1.map
        (fun r => r.status)
      = List.replicate 60 200 ++ [429] ∧
    ((runHandlerTimes ctx ts rtStr [] (t0 :: (mid ++ [tLast]))).1.getLast?).map
        (fun r => hGet r "Retry-After")
      = some (some "60") := by
  have hmid' : ∀ t ∈ mid, ¬ (t0 + 60000 : Int) < t := by
    intro t ht
    have h2 := (hmid t ht).2
    omega
  have hrun := runHandlerTimes_within_window ctx ts rtStr mid 1 (t0 + 60000)
    (by omega) hmid'
  have hdeny := checkRateLimit_deny (jsIpOr ctx) tLast (t0 + 60000) (by omega)
  have hfresh := checkRateLimit_fresh (jsIpOr ctx) t0
  have hshape : (runHandlerTimes ctx ts rtStr [] (t0 :: (mid ++ [tLast]))).1 =
      (dbOptimizedHandler "GET" ctx none none t0 ts rtStr []).response ::
        ((runHandlerTimes ctx ts rtStr [(jsIpOr ctx, ⟨1, t0 + 60000⟩)] mid).1 ++
          (runHandlerTimes ctx ts rtStr [(jsIpOr ctx, ⟨60, t0 + 60000⟩)]
            [tLast]).1) := by
    simp only [runHandlerTimes]
    have hmap : (dbOptimizedHandler "GET" ctx none none t0 ts rtStr []).newMap
        = [(jsIpOr ctx, ⟨1, t0 + 60000⟩)] := by
      simp [dbOptimizedHandler, hfresh]
    rw [hmap, runHandlerTimes_append]
    rw [hrun.2]
    have h60 : 1 + mid.length = 60 := by omega
    rw [h60]
    simp [runHandlerTimes]
  constructor
  · rw [hshape]
    have hst0 : (dbOptimizedHandler "GET" ctx none none t0 ts rtStr
        []).response.status = 200 := by
      simp [dbOptimizedHandler, hfresh]
    have hst429 : (runHandlerTimes ctx ts rtStr
        [(jsIpOr ctx, ⟨60, t0 + 60000⟩)] [tLast]).1.map (fun r => r.status)
        = [429] := by
      simp [runHandlerTimes, dbOptimizedHandler, hdeny]
    simp only [List.map_cons, List.map_append, hst0, hst429, hrun.1, hlen]
    simp [List.replicate_succ]
  · rw [hshape]
    rw [← List.cons_append]
    have hlast : (runHandlerTimes ctx ts rtStr
        [(jsIpOr ctx, ⟨60, t0 + 60000⟩)] [tLast]).1
        = [(dbOptimizedHandler "GET" ctx none none tLast ts rtStr
            [(jsIpOr ctx, ⟨60, t0 + 60000⟩)]).response] := by
      simp [runHandlerTimes]
    rw [hlast, List.getLast?_append_cons]
    simp only [List.getLast?_singleton, Option.map_some']
    have : hGet (dbOptimizedHandler "GET" ctx none none tLast ts rtStr
        [(jsIpOr ctx, ⟨60, t0 + 60000⟩)]).response "Retry-After"
        = some "60" := by
      simp [dbOptimizedHandler, hdeny, hGet, List.find?_cons]
    rw [this]

/-- Witness for C1: the concrete window with all 61 requests at time 0. -/
theorem c1_sixty_allowed_then_429_witness :
    (List.replicate 59 (0 : Int)).length = 59 ∧
    (∀ t ∈ List.replicate 59 (0 : Int), (0 : Int) ≤ t ∧ t ≤ 0 + 60000) ∧
    (0 : Int) ≤ 0 ∧ (0 : Int) ≤ 0 + 60000 ∧
    ((runHandlerTimes (some "1.2.3.4") "T" "0.50" []
        ((0 : Int) :: (List.replicate 59 (0 : Int) ++ [(0 : Int)]))).1.map
          (fun r => r.status)
        = List.replicate 60 200 ++ [429] ∧
      ((runHandlerTimes (some "1.2.3.4") "T" "0.50" []
          ((0 : Int) :: (List.replicate 59 (0 : Int) ++ [(0 : Int)]))).1.getLast?).map
          (fun r => hGet r "Retry-After")
        = some (some "60")) := by
  have hmem : ∀ t ∈ List.replicate 59 (0 : Int), (0 : Int) ≤ t ∧ t ≤ 0 + 60000 := by
    intro t ht
    have := List.eq_of_mem_replicate ht
    subst this
    exact ⟨le_refl 0, by norm_num⟩
  refine ⟨by simp, hmem, le_refl 0, by norm_num, ?_⟩
  exact c1_sixty_allowed_then_429 (some "1.2.3.4") "T" "0.50" 0 0
    (List.replicate 59 0) (by simp) hmem (le_refl 0) (by norm_num)

/-! ### Association-list lemmas for the rate-limit map -/

theorem rmFind_cons (a : String × RateRecord) (m : RateMap) (k : String) :
    rmFind (a :: m) k = if a.1 = k then some a.2 else rmFind m k := by
  by_cases h : a.1 = k
  · simp [rmFind, List.find?_cons, h]
  · simp [rmFind, List.find?_cons, h]

theorem rmFind_eq_none_iff (m : RateMap) (k : String) :
    rmFind m k = none ↔ ∀ p ∈ m, p.1 ≠ k := by
  simp [rmFind, List.find?_eq_none]

theorem rmFind_append (m m2 : RateMap) (k : String) :
    rmFind (m ++ m2) k = (rmFind m k).or (rmFind m2 k) := by
  induction m with
  | nil => simp [rmFind]
  | cons a m ih =>
    by_cases h : a.1 = k
    · simp [List.cons_append, rmFind_cons, h]
    · simp [List.cons_append, rmFind_cons, h, ih]

theorem rmBump_cons (a : String × RateRecord) (m : RateMap) (ip : String)
    (r : RateRecord) :
    rmBump (a :: m) ip r
      = (if a.1 == ip then (a.1, r) else a) :: rmBump m ip r := rfl

theorem rmFind_rmBump_other (m : RateMap) (ip : String) (r : RateRecord)
    (k : String) (h : k ≠ ip) :
    rmFind (rmBump m ip r) k = rmFind m k := by
  induction m with
  | nil => rfl
  | cons a m ih =>
    rw [rmBump_cons]
    by_cases ha : a.1 = ip
    · have h1 : (if a.1 == ip then (a.1, r) else a) = (a.1, r) := by simp [ha]
      have hak : ¬ a.1 = k := fun hk => h (ha.symm.trans hk).symm
      rw [h1, rmFind_cons, rmFind_cons]
      simp [hak, ih]
    · have h1 : (if a.1 == ip then (a.1, r) else a) = a := by simp [ha]
      rw [h1, rmFind_cons, rmFind_cons]
      by_cases hk : a.1 = k
      · simp [hk]
      · simp [hk, ih]

theorem rmFind_rmBump_self (m : RateMap) (ip : String) (r : RateRecord)
    (h : (rmFind m ip).isSome) :
    rmFind (rmBump m ip r) ip = some r := by
  induction m with
  | nil => simp [rmFind] at h
  | cons a m ih =>
    rw [rmBump_cons]
    by_cases ha : a.1 = ip
    · have h1 : (if a.1 == ip then (a.1, r) else a) = (a.1, r) := by simp [ha]
      rw [h1, rmFind_cons]
      simp [ha]
    · have h1 : (if a.1 == ip then (a.1, r) else a) = a := by simp [ha]
      rw [rmFind_cons] at h
      simp only [ha, if_false] at h
      rw [h1, rmFind_cons]
      simp only [ha, if_false]
      exact ih h

theorem rmFind_rmSet_self (m : RateMap) (ip : String) (r : RateRecord) :
    rmFind (rmSet m ip r) ip = some r := by
  unfold rmSet
  split
  · exact rmFind_rmBump_self m ip r (by assumption)
  · rename_i h
    have hnone : rmFind m ip = none := Option.not_isSome_iff_eq_none.mp h
    rw [rmFind_append, hnone, Option.none_or, rmFind_cons]
    simp

theorem rmFind_rmSet_other (m : RateMap) (ip : String) (r : RateRecord)
    (k : String) (h : k ≠ ip) :
    rmFind (rmSet m ip r) k = rmFind m k := by
  unfold rmSet
  split
  · exact rmFind_rmBump_other m ip r k h
  · rw [rmFind_append, rmFind_cons]
    have : ¬ ip = k := fun hk => h hk.symm
    simp only [this, if_false]
    cases hm : rmFind m k <;> simp [rmFind]

theorem rmWF_cons (a : String × RateRecord) (m : RateMap) :
    rmWF (a :: m) ↔ (∀ p ∈ m, p.1 ≠ a.1) ∧ rmWF m := by
  simp only [rmWF, List.map_cons, List.nodup_cons, List.mem_map]
  constructor
  · rintro ⟨h1, h2⟩
    refine ⟨fun p hp hpe => h1 ⟨p, hp, hpe⟩, h2⟩
  · rintro ⟨h1, h2⟩
    refine ⟨fun ⟨p, hp, hpe⟩ => h1 p hp hpe, h2⟩

theorem rmWF_rmBump (m : RateMap) (ip : String) (r : RateRecord)
    (h : rmWF m) : rmWF (rmBump m ip r) := by
  have hkeys : (rmBump m ip r).map Prod.fst = m.map Prod.fst := by
    simp only [rmBump, List.map_map]
    apply List.map_congr_left
    intro p _
    by_cases hp : p.1 = ip <;> simp [hp]
  unfold rmWF
  rw [hkeys]
  exact h

theorem rmWF_rmSet (m : RateMap) (ip : String) (r : RateRecord)
    (h : rmWF m) : rmWF (rmSet m ip r) := by
  unfold rmSet
  split
  · exact rmWF_rmBump m ip r h
  · rename_i hns
    have hnone : rmFind m ip = none := Option.not_isSome_iff_eq_none.mp hns
    have hnotin : ∀ p ∈ m, p.1 ≠ ip := (rmFind_eq_none_iff m ip).mp hnone
    unfold rmWF
    rw [List.map_append]
    simp only [List.map_cons, List.map_nil]
    rw [List.nodup_append]
    refine ⟨h, List.nodup_singleton ip, ?_⟩
    intro a ha hb
    simp only [List.mem_singleton] at hb
    subst hb
    obtain ⟨p, hp, hpe⟩ := List.mem_map.mp ha
    exact hnotin p hp hpe

theorem rmWF_rmCleanup (cutoff : Int) (m : RateMap) (h : rmWF m) :
    rmWF (rmCleanup cutoff m) := by
  unfold rmWF rmCleanup
  exact h.sublist (List.Sublist.map Prod.fst (List.filter_sublist m))

theorem rmFind_rmCleanup (cutoff : Int) (m : RateMap) (k : String)
    (hWF : rmWF m) :
    rmFind (rmCleanup cutoff m) k =
      match rmFind m k with
      | some r => if r.resetTime < cutoff then none else some r
      | none => none := by
  induction m with
  | nil => rfl
  | cons a m ih =>
    obtain ⟨hnotin, hWFm⟩ := (rmWF_cons a m).mp hWF
    by_cases hc : a.2.resetTime < cutoff
    · rw [show rmCleanup cutoff (a :: m) = rmCleanup cutoff m by
        simp [rmCleanup, List.filter_cons, hc]]
      by_cases ha : a.1 = k
      · have hnone : rmFind (rmCleanup cutoff m) k = none := by
          rw [rmFind_eq_none_iff]
          intro p hp hpk
          exact hnotin p (List.mem_of_mem_filter hp) (hpk.trans ha.symm)
        rw [hnone, rmFind_cons]
        simp [ha, hc]
      · rw [ih hWFm, rmFind_cons]
        simp [ha]
    · rw [show rmCleanup cutoff (a :: m) = a :: rmCleanup cutoff m by
        simp [rmCleanup, List.filter_cons, hc]]
      rw [rmFind_cons, rmFind_cons]
      by_cases ha : a.1 = k
      · simp [ha, hc]
      · simp only [ha, if_false]
        exact ih hWFm

theorem rmWF_checkRateLimit (ip : String) (mr : Nat) (w t : Int)
    (m : RateMap) (h : rmWF m) : rmWF (checkRateLimit ip mr w t m).2 := by
  unfold checkRateLimit
  have h1 : rmWF (if 10000 < m.length then rmCleanup (t - w) m else m) := by
    split
    · exact rmWF_rmCleanup _ m h
    · exact h
  cases hr : rmFind m ip with
  | none => simpa using rmWF_rmSet _ ip _ h1
  | some r =>
    by_cases hrt : r.resetTime < t
    · simpa [hrt] using rmWF_rmSet _ ip _ h1
    · by_cases hcnt : r.count < mr
      · simpa [hrt, hcnt] using rmWF_rmBump _ ip _ h1
      · simpa [hrt, hcnt] using h1

/-! ### The effective-record view and step lemmas for noninterference -/

theorem eff_none_cases {t : Int} {m : RateMap} {k : String}
    (h : eff t m k = none) :
    rmFind m k = none ∨ ∃ r, rmFind m k = some r ∧ r.resetTime < t := by
  unfold eff at h
  cases hr : rmFind m k with
  | none => exact Or.inl rfl
  | some r =>
    rw [hr] at h
    by_cases hrt : r.resetTime < t
    · exact Or.inr ⟨r, rfl, hrt⟩
    · simp [hrt] at h

theorem eff_some {t : Int} {m : RateMap} {k : String} {r : RateRecord}
    (h : eff t m k = some r) :
    rmFind m k = some r ∧ ¬ r.resetTime < t := by
  unfold eff at h
  cases hr : rmFind m k with
  | none => rw [hr] at h; exact absurd h (by simp)
  | some r' =>
    rw [hr] at h
    by_cases hrt : r'.resetTime < t
    · simp [hrt] at h
    · simp only [hrt, if_false] at h
      obtain rfl : r' = r := by simpa using h
      exact ⟨rfl, hrt⟩

/-- When no record is effective at time `t` (absent or expired), the request
is allowed and a fresh record is installed. -/
theorem checkRateLimit_eff_none (k : String) (mr : Nat) (w t : Int)
    (m : RateMap) (h : eff t m k = none) :
    (checkRateLimit k mr w t m).1 = true ∧
    rmFind (checkRateLimit k mr w t m).2 k = some ⟨1, t + w⟩ := by
  rcases eff_none_cases h with hr | ⟨r, hr, hrt⟩
  · simp only [checkRateLimit, hr]
    exact ⟨by simp, rmFind_rmSet_self _ k _⟩
  · simp only [checkRateLimit, hr, hrt, if_true]
    exact ⟨by simp, rmFind_rmSet_self _ k _⟩

/-- When a record is effective at time `t`, the decision is `count < max`
and the record either gains one count (allowed) or stays (denied). -/
theorem checkRateLimit_eff_some (k : String) (mr : Nat) (w t : Int)
    (m : RateMap) (r : RateRecord) (hw : 0 < w) (hWF : rmWF m)
    (h : eff t m k = some r) :
    (checkRateLimit k mr w t m).1 = decide (r.count < mr) ∧
    rmFind (checkRateLimit k mr w t m).2 k
      = if r.count < mr then some ⟨r.count + 1, r.resetTime⟩ else some r := by
  obtain ⟨hr, hrt⟩ := eff_some h
  have hm1 : rmFind (if 10000 < m.length then rmCleanup (t - w) m else m) k
      = some r := by
    split
    · rw [rmFind_rmCleanup _ _ _ hWF, hr]
      have hnd : ¬ r.resetTime < t - w := by omega
      simp [hnd]
    · exact hr
  by_cases hc : r.count < mr
  · simp only [checkRateLimit, hr, hrt, if_false, hc, if_true]
    refine ⟨by simp [hc], ?_⟩
    exact rmFind_rmBump_self _ k _ (by rw [hm1]; rfl)
  · simp only [checkRateLimit, hr, hrt, if_false, hc]
    exact ⟨by simp [hc], hm1⟩

/-- The decision for `k`'s own request, and `k`'s record afterwards, are
determined by the record effective for `k` at that time. -/
theorem checkRateLimit_own_step (k : String) (mr : Nat) (w t : Int)
    (m1 m2 : RateMap) (hw : 0 < w) (hWF1 : rmWF m1) (hWF2 : rmWF m2)
    (he : eff t m1 k = eff t m2 k) :
    (checkRateLimit k mr w t m1).1 = (checkRateLimit k mr w t m2).1 ∧
    rmFind (checkRateLimit k mr w t m1).2 k
      = rmFind (checkRateLimit k mr w t m2).2 k := by
  cases he2 : eff t m2 k with
  | none =>
    have h1 := checkRateLimit_eff_none k mr w t m1 (he.trans he2)
    have h2 := checkRateLimit_eff_none k mr w t m2 he2
    exact ⟨h1.1.trans h2.1.symm, h1.2.trans h2.2.symm⟩
  | some r =>
    have h1 := checkRateLimit_eff_some k mr w t m1 r hw hWF1 (he.trans he2)
    have h2 := checkRateLimit_eff_some k mr w t m2 r hw hWF2 he2
    exact ⟨h1.1.trans h2.1.symm, h1.2.trans h2.2.symm⟩

/-- Another client's request (including any cleanup sweep it triggers) does
not change the record effective for `k` at any later time. -/
theorem checkRateLimit_other_step (ip k : String) (mr : Nat) (w t t2 : Int)
    (m : RateMap) (hw : 0 < w) (hWF : rmWF m) (hne : ip ≠ k) (ht : t ≤ t2) :
    eff t2 (checkRateLimit ip mr w t m).2 k = eff t2 m k := by
  have hne' : k ≠ ip := hne.symm
  have hm1c : rmFind (checkRateLimit ip mr w t m).2 k
      = rmFind (if 10000 < m.length then rmCleanup (t - w) m else m) k := by
    cases hr : rmFind m ip with
    | none =>
      simp only [checkRateLimit, hr]
      exact rmFind_rmSet_other _ ip _ k hne'
    | some r =>
      by_cases hrt : r.resetTime < t
      · simp only [checkRateLimit, hr, hrt, if_true]
        exact rmFind_rmSet_other _ ip _ k hne'
      · by_cases hc : r.count < mr
        · simp only [checkRateLimit, hr, hrt, if_false, hc, if_true]
          exact rmFind_rmBump_other _ ip _ k hne'
        · simp only [checkRateLimit, hr, hrt, if_false, hc]

  by_cases hlen : 10000 < m.length
  · rw [eff, eff, hm1c]
    simp only [hlen, if_true]
    rw [rmFind_rmCleanup _ _ _ hWF]
    cases hr : rmFind m k with
    | none => simp
    | some r =>
      by_cases hd : r.resetTime < t - w
      · have h2 : r.resetTime < t2 := by omega
        simp [hd, h2]
      · simp [hd]
  · rw [eff, eff, hm1c]
    simp [hlen]

/-- Main noninterference lemma: along a time-ordered trace, the decisions
handed to `target` from a state `m1` equal those from running only
`target`'s own requests from any state `m2` whose effective record for
`target` agrees from the trace's start onwards. -/
theorem runDecisionsFor_filter (target : String) (mr : Nat) (w : Int)
    (hw : 0 < w) :
    ∀ (tr : List (String × Int)) (τ : Int) (m1 m2 : RateMap),
      rmWF m1 → rmWF m2 → timesMono τ tr = true →
      (∀ t, τ ≤ t → eff t m1 target = eff t m2 target) →
      runDecisionsFor target mr w m1 tr =
        runDecisionsFor target mr w m2
          (tr.filter (fun p => p.1 == target)) := by
  intro tr
  induction tr with
  | nil => intro τ m1 m2 _ _ _ _; rfl
  | cons p rest ih =>
    intro τ m1 m2 hWF1 hWF2 hmono hinv
    obtain ⟨ip, t⟩ := p
    have hmono' : (decide (τ ≤ t) && timesMono t rest) = true := hmono
    rw [Bool.and_eq_true] at hmono'
    obtain ⟨hτt, hrest⟩ := hmono'
    have hτt' : τ ≤ t := of_decide_eq_true hτt
    by_cases hip : ip = target
    · subst hip
      have hstep := checkRateLimit_own_step ip mr w t m1 m2 hw hWF1 hWF2
        (hinv t hτt')
      have hWF1' := rmWF_checkRateLimit ip mr w t m1 hWF1
      have hWF2' := rmWF_checkRateLimit ip mr w t m2 hWF2
      have hinv' : ∀ t2, t ≤ t2 →
          eff t2 (checkRateLimit ip mr w t m1).2 ip
            = eff t2 (checkRateLimit ip mr w t m2).2 ip := by
        intro t2 _
        unfold eff
        rw [hstep.2]
      simp only [List.filter_cons, beq_self_eq_true, if_true,
        runDecisionsFor, if_pos rfl]
      rw [hstep.1, ih t _ _ hWF1' hWF2' hrest hinv']
    · have hinv' : ∀ t2, t ≤ t2 →
          eff t2 (checkRateLimit ip mr w t m1).2 target
            = eff t2 m2 target := by
        intro t2 ht2
        rw [checkRateLimit_other_step ip target mr w t t2 m1 hw hWF1 hip ht2]
        exact hinv t2 (le_trans hτt' ht2)
      have hWF1' := rmWF_checkRateLimit ip mr w t m1 hWF1
      have hbeq : (ip == target) = false := by
        simp [hip]
      simp only [List.filter_cons, hbeq, if_false, runDecisionsFor,
        if_neg hip]
      exact ih t _ _ hWF1' hWF2 hrest hinv'

/-- C9: `checkRateLimit` is per-client noninterfering — over any two
time-ordered traces that contain the same requests from the `target` client
(at the same times), interleaved with arbitrary traffic from other clients,
the sequence of allow/deny decisions handed to `target` is identical. -/
theorem c9_per_client_noninterference (target : String) (τ : Int)
    (tr1 tr2 : List (String × Int))
    (h1 : timesMono τ tr1 = true) (h2 : timesMono τ tr2 = true)
    (hfil : tr1.filter (fun p => p.1 == target)
      = tr2.filter (fun p => p.1 == target)) :
    runDecisionsFor target 60 60000 [] tr1
      = runDecisionsFor target 60 60000 [] tr2 := by
  have hWF : rmWF ([] : RateMap) := by simp [rmWF]
  have e1 := runDecisionsFor_filter target 60 60000 (by norm_num) tr1 τ [] []
    hWF hWF h1 (fun _ _ => rfl)
  have e2 := runDecisionsFor_filter target 60 60000 (by norm_num) tr2 τ [] []
    hWF hWF h2 (fun _ _ => rfl)
  rw [e1, e2, hfil]

/-- Witness for C9: the client `"a"` observed through a trace with traffic
from `"b"` interleaved, against its own solo trace. -/
theorem c9_per_client_noninterference_witness :
    timesMono 0 [("a", (0 : Int)), ("b", 1), ("a", 2)] = true ∧
    timesMono 0 [("a", (0 : Int)), ("a", 2), ("b", 7)] = true ∧
    [("a", (0 : Int)), ("b", 1), ("a", 2)].filter (fun p => p.1 == "a")
      = [("a", (0 : Int)), ("a", 2), ("b", 7)].filter (fun p => p.1 == "a") ∧
    runDecisionsFor "a" 60 60000 [] [("a", (0 : Int)), ("b", 1), ("a", 2)]
      = runDecisionsFor "a" 60 60000 [] [("a", (0 : Int)), ("a", 2), ("b", 7)] := by
  refine ⟨by decide, by decide, by decide, ?_⟩
  exact c9_per_client_noninterference "a" 0 _ _ (by decide) (by decide)
    (by decide)

/-! ### Cleanup behaviour (towards C6) -/

/-- For any other key, `checkRateLimit` only applies (or skips) the cleanup
sweep. -/
theorem rmFind_checkRateLimit_other (ip k : String) (mr : Nat) (w t : Int)
    (m : RateMap) (hne : k ≠ ip) :
    rmFind (checkRateLimit ip mr w t m).2 k
      = rmFind (if 10000 < m.length then rmCleanup (t - w) m else m) k := by
  cases hr : rmFind m ip with
  | none =>
    simp only [checkRateLimit, hr]
    exact rmFind_rmSet_other _ ip _ k hne
  | some r =>
    by_cases hrt : r.resetTime < t
    · simp only [checkRateLimit, hr, hrt, if_true]
      exact rmFind_rmSet_other _ ip _ k hne
    · by_cases hc : r.count < mr
      · simp only [checkRateLimit, hr, hrt, if_false, hc, if_true]
        exact rmFind_rmBump_other _ ip _ k hne
      · simp only [checkRateLimit, hr, hrt, if_false, hc]

theorem rmFind_rmErase_self (m : RateMap) (k : String) :
    rmFind (rmErase m k) k = none := by
  rw [rmFind_eq_none_iff]
  intro p hp
  have := List.of_mem_filter hp
  simpa using this

theorem natKey_inj : Function.Injective natKey := by
  intro a b h
  have h2 := congrArg String.data h
  simp only [natKey] at h2
  have h3 := congrArg List.length h2
  simpa using h3

theorem natKey_length (n : Nat) : (natKey n).length = n := by
  simp [natKey, String.length]

theorem bigMap_keys :
    bigMap.map Prod.fst = natKey 10000 :: (List.range 10000).map natKey := by
  simp [bigMap, List.map_map, Function.comp]

theorem bigMap_wf : rmWF bigMap := by
  rw [rmWF, bigMap_keys, List.nodup_cons]
  constructor
  · intro hmem
    obtain ⟨i, hi, hkey⟩ := List.mem_map.mp hmem
    have := natKey_inj hkey
    have hi' := List.mem_range.mp hi
    omega
  · exact (List.nodup_range 10000).map natKey_inj

theorem bigMap_length : 10000 < bigMap.length := by
  simp [bigMap]

theorem bigMap_find_probe : rmFind bigMap (natKey 10000) = some ⟨1, 0⟩ := by
  unfold bigMap
  rw [rmFind_cons]
  simp

/-- C6: the cleanup sweep of `checkRateLimit` runs only when the map holds
more than 10000 entries — below that threshold no record of another client
is removed; when it runs it deletes exactly the records whose `resetTime`
lies more than one window (60000 ms) before the current time; a record whose
window is still active (`now ≤ resetTime`) is never deleted; and deleting a
sweep-eligible record does not change that client's next decision or its
record afterwards, so cleanup never changes any client's subsequent
allow/deny outcomes. -/
theorem c6_cleanup_threshold_and_harmless (ip : String) (now : Int)
    (m : RateMap) (hWF : rmWF m) :
    (m.length ≤ 10000 → ∀ k, k ≠ ip →
      rmFind (checkRateLimit ip 60 60000 now m).2 k = rmFind m k) ∧
    (10000 < m.length → ∀ k r, k ≠ ip → rmFind m k = some r →
      rmFind (checkRateLimit ip 60 60000 now m).2 k
        = if r.resetTime < now - 60000 then none else some r) ∧
    (∀ k r, rmFind m k = some r → now ≤ r.resetTime →
      (rmFind (checkRateLimit ip 60 60000 now m).2 k).isSome = true) ∧
    (∀ k r t, rmFind m k = some r → r.resetTime < now - 60000 → now ≤ t →
      (checkRateLimit k 60 60000 t (rmErase m k)).1
        = (checkRateLimit k 60 60000 t m).1 ∧
      rmFind (checkRateLimit k 60 60000 t (rmErase m k)).2 k
        = rmFind (checkRateLimit k 60 60000 t m).2 k) := by
  refine ⟨?_, ?_, ?_, ?_⟩
  · intro hlen k hk
    rw [rmFind_checkRateLimit_other ip k 60 60000 now m hk]
    simp [Nat.not_lt.mpr hlen]
  · intro hlen k r hk hr
    rw [rmFind_checkRateLimit_other ip k 60 60000 now m hk]
    simp only [hlen, if_true]
    rw [rmFind_rmCleanup _ _ _ hWF, hr]
  · intro k r hr hnow
    by_cases hk : k = ip
    · subst hk
      have heff : eff now m k = some r := by
        unfold eff
        rw [hr]
        simp [not_lt.mpr hnow]
      have hs := checkRateLimit_eff_some k 60 60000 now m r (by norm_num)
        hWF heff
      rw [hs.2]
      split <;> rfl
    · rw [rmFind_checkRateLimit_other ip k 60 60000 now m hk]
      split
      · rw [rmFind_rmCleanup _ _ _ hWF, hr]
        have hnd : ¬ r.resetTime < now - 60000 := by omega
        simp [hnd]
      · rw [hr]
        rfl
  · intro k r t hr hstale ht
    have heff1 : eff t (rmErase m k) k = none := by
      unfold eff
      rw [rmFind_rmErase_self]
    have heff2 : eff t m k = none := by
      unfold eff
      rw [hr]
      have : r.resetTime < t := by omega
      simp [this]
    have h1 := checkRateLimit_eff_none k 60 60000 t (rmErase m k) heff1
    have h2 := checkRateLimit_eff_none k 60 60000 t m heff2
    exact ⟨h1.1.trans h2.1.symm, h1.2.trans h2.2.symm⟩

/-- Witness for C6: a small map below the threshold for the no-sweep and
active-record parts, the 10001-entry `bigMap` for the sweep part, and a
stale record for the harmlessness part. -/
theorem c6_cleanup_threshold_and_harmless_witness :
    (rmWF [("a", (⟨1, 100⟩ : RateRecord))] ∧
      [("a", (⟨1, 100⟩ : RateRecord))].length ≤ 10000 ∧
      ("a" : String) ≠ "b" ∧
      rmFind (checkRateLimit "b" 60 60000 50 [("a", ⟨1, 100⟩)]).2 "a"
        = rmFind [("a", (⟨1, 100⟩ : RateRecord))] "a") ∧
    (rmWF bigMap ∧ 10000 < bigMap.length ∧ natKey 10000 ≠ "client" ∧
      rmFind bigMap (natKey 10000) = some ⟨1, 0⟩ ∧
      rmFind (checkRateLimit "client" 60 60000 70000 bigMap).2 (natKey 10000)
        = if (⟨1, 0⟩ : RateRecord).resetTime < (70000 : Int) - 60000 then none
          else some ⟨1, 0⟩) ∧
    (rmFind [("a", (⟨1, 100⟩ : RateRecord))] "a" = some ⟨1, 100⟩ ∧
      (50 : Int) ≤ 100 ∧
      (rmFind (checkRateLimit "b" 60 60000 50 [("a", ⟨1, 100⟩)]).2 "a").isSome
        = true) ∧
    (rmFind [("a", (⟨1, -100000⟩ : RateRecord))] "a" = some ⟨1, -100000⟩ ∧
      (⟨1, -100000⟩ : RateRecord).resetTime < (0 : Int) - 60000 ∧ (0 : Int) ≤ 0 ∧
      ((checkRateLimit "a" 60 60000 0
          (rmErase [("a", (⟨1, -100000⟩ : RateRecord))] "a")).1
        = (checkRateLimit "a" 60 60000 0 [("a", ⟨1, -100000⟩)]).1 ∧
      rmFind (checkRateLimit "a" 60 60000 0
          (rmErase [("a", (⟨1, -100000⟩ : RateRecord))] "a")).2 "a"
        = rmFind (checkRateLimit "a" 60 60000 0 [("a", ⟨1, -100000⟩)]).2 "a")) := by
  have hkc : natKey 10000 ≠ "client" := by
    intro h
    have h2 := congrArg String.length h
    rw [natKey_length] at h2
    exact absurd h2 (by decide)
  refine ⟨⟨by decide, by decide, by decide, ?_⟩,
    ⟨bigMap_wf, bigMap_length, hkc, bigMap_find_probe, ?_⟩,
    ⟨by decide, by decide, ?_⟩, ⟨by decide, by decide, by decide, ?_⟩⟩
  · exact (c6_cleanup_threshold_and_harmless "b" 50 [("a", ⟨1, 100⟩)]
      (by decide)).1 (by decide) "a" (by decide)
  · exact (c6_cleanup_threshold_and_harmless "client" 70000 bigMap
      bigMap_wf).2.1 bigMap_length (natKey 10000) ⟨1, 0⟩ hkc bigMap_find_probe
  · exact (c6_cleanup_threshold_and_harmless "b" 50 [("a", ⟨1, 100⟩)]
      (by decide)).2.2.1 "a" ⟨1, 100⟩ (by decide) (by decide)
  · exact (c6_cleanup_threshold_and_harmless "b" 0 [("a", ⟨1, -100000⟩)]
      (by decide)).2.2.2 "a" ⟨1, -100000⟩ 0 (by decide) (by decide) (by decide)

end CoinScribe
